import Mathlib

/-!
Verification development for the baichuan-assistant data-report tool
(src/utils.py and src/app.py).  The definitions below are a shallow
embedding of the Python source:

* a JSON record (one element of the streamed `value` / `value.records`
  array) is modelled as an association list of string keys and values;
* a pandas DataFrame built from a list of records is modelled by its row
  list (`DataFrame`); its column set is the first-appearance union of the
  record keys (`columnsOf`), as pandas infers it from a list of dicts;
* `pd.DataFrame.drop_duplicates` (full-row equality, keep the first
  occurrence) is `dropDupsFirst`;
* the batching loop of `_process_stream_dataset` is `streamLoop` /
  `streamBatches` / `processStreamDataset`; `pd.concat(dataframes,
  ignore_index=True)` is `List.join` on the batch list;
* `_finalize_dataframe` is `finalizeDataframe`;
* the post-HTTP part of `fetch_api_data` (error-prefix sniffing on the
  first 2048 bytes, parse-path selection, streaming) is `fetchApiData`,
  parametric in oracles for `json.loads` and for the `ijson` record
  parser, which are external libraries;
* `with_retry`, `acquire_lock` and `execute_task` from app.py are
  `withRetry`, `acquireLock` and `executeTask`;
* the sheet-name sanitisation expression of
  `generate_excel_file_with_sheets` / `_create_excel_attachment` is
  `sanitizeSheetName` and `chosenSheetName`.

Only the log lines the properties talk about (the truncation warning,
the no-data warning, the API error message, and a marker for entering
the streaming branch) are modelled, as a `LogEvent` list threaded
through the results.
-/

/-- A streamed JSON record: an association list of field name / value. -/
abbrev Rec := List (String × String)

/-- A pandas DataFrame, modelled by its list of rows. -/
structure DataFrame where
  rows : List Rec
deriving DecidableEq, Repr

/-- Column set of a DataFrame built from a list of records: the
first-appearance union of the keys of the records, as pandas infers it
from a list of dicts. -/
def columnsOf (rows : List Rec) : List String :=
  rows.foldl (fun acc r => acc ++ (r.map Prod.fst).filter (fun k => decide (k ∉ acc))) []

/-- Helper for `drop_duplicates` on rows: keep the first occurrence of each row,
drop later exact duplicates, preserving order.  `seen` accumulates the
rows already emitted. -/
def dropDupsAux {α : Type} [DecidableEq α] : List α → List α → List α
  | [], _ => []
  | x :: xs, seen =>
    if x ∈ seen then dropDupsAux xs seen
    else x :: dropDupsAux xs (x :: seen)

/-- Embeds `pd.DataFrame.drop_duplicates()` (full-row equality, keep first). -/
def dropDupsFirst {α : Type} [DecidableEq α] (l : List α) : List α :=
  dropDupsAux l []

/-- The log lines the verified properties refer to. -/
inductive LogEvent where
  | truncationWarning (maxRecords : Nat)
  | noDataWarning
  | apiError (msg : String)
  | apiErrorUnparseable
  | streamStart
deriving DecidableEq, Repr

/-- Embeds `_finalize_dataframe(df, task_config, api_name)` from utils.py:
deduplicate (when non-empty), then reject the dataset (`None`) when the
configured `required_fields` list is non-empty and some required field
is missing from the columns; otherwise return the deduplicated frame.
The memory log line and the cache write are side effects not needed by
any claim and are left out. -/
def finalizeDataframe (df : DataFrame) (requiredFields : List String) : Option DataFrame :=
  let deduped := if df.rows = [] then df.rows else dropDupsFirst df.rows
  if requiredFields ≠ [] ∧
      requiredFields.filter (fun f => decide (f ∉ columnsOf deduped)) ≠ [] then
    none
  else
    some ⟨deduped⟩

/-- Result of the record-consuming loop of `_process_stream_dataset`:
the materialised batches, the pending (not yet materialised) batch, the
total number of records consumed, and whether the `max_records` break
(with its truncation warning) fired. -/
structure LoopResult where
  batches : List (List Rec)
  pending : List Rec
  total : Nat
  truncated : Bool
deriving DecidableEq, Repr

/-- The `for record in records_iter` loop of `_process_stream_dataset`:
append the record to the current batch and bump the count; if the batch
reached `batchSize`, materialise it; if the count reached `maxRecords`,
log the truncation warning and stop consuming the stream. -/
def streamLoop : List Rec → Nat → Nat → List Rec → Nat → List (List Rec) → LoopResult
  | [], _, _, cur, t, dfs => ⟨dfs, cur, t, false⟩
  | r :: rest, b, m, cur, t, dfs =>
    if b ≤ (cur ++ [r]).length then
      if m ≤ t + 1 then ⟨dfs ++ [cur ++ [r]], [], t + 1, true⟩
      else streamLoop rest b m [] (t + 1) (dfs ++ [cur ++ [r]])
    else
      if m ≤ t + 1 then ⟨dfs, cur ++ [r], t + 1, true⟩
      else streamLoop rest b m (cur ++ [r]) (t + 1) dfs

/-- The batch list after the loop, with the trailing partial batch
appended when non-empty (`if current_batch: dataframes.append(...)`). -/
def streamBatches (records : List Rec) (batchSize maxRecords : Nat) : List (List Rec) :=
  let r := streamLoop records batchSize maxRecords [] 0 []
  if r.pending = [] then r.batches else r.batches ++ [r.pending]

/-- The hard-coded batch size of `_process_stream_dataset`. -/
def defaultBatchSize : Nat := 10000

/-- Embeds `_process_stream_dataset(records_iter, task_config, api_name,
max_records)`: run the batching loop, return `None` (plus a no-data
warning) when no batch was produced, otherwise concatenate the batches
in order (`pd.concat`) and finalize.  The batch size is a parameter
here so that its influence can be stated; the source fixes it to
`defaultBatchSize`. -/
def processStreamDataset (records : List Rec) (requiredFields : List String)
    (maxRecords batchSize : Nat) : Option DataFrame × List LogEvent :=
  let r := streamLoop records batchSize maxRecords [] 0 []
  let batches := streamBatches records batchSize maxRecords
  let logs := if r.truncated then [LogEvent.truncationWarning maxRecords] else []
  if batches = [] then (none, logs ++ [LogEvent.noDataWarning])
  else (finalizeDataframe ⟨batches.flatten⟩ requiredFields, logs)

/-- Embeds `_process_small_dataset(records, task_config, api_name)`: build the
frame in one go from the fully buffered record list and finalize.  This
is the "fully buffered and parsed at once" reference behaviour. -/
def processSmallDataset (records : List Rec) (requiredFields : List String) :
    Option DataFrame :=
  finalizeDataframe ⟨records⟩ requiredFields

/-- Python `str.split()` whitespace (ASCII part): the characters removed
by `''.join(preview.split())` in `fetch_api_data`. -/
def isPySpace (c : Char) : Bool :=
  c = ' ' || c = '\t' || c = '\n' || c = '\r' || c = '\x0b' || c = '\x0c'

/-- Python `needle in haystack` prefix helper on byte/char lists. -/
def isPrefixOfB : List Char → List Char → Bool
  | [], _ => true
  | _ :: _, [] => false
  | x :: xs, y :: ys => x = y && isPrefixOfB xs ys

/-- Python substring test `needle in haystack` on char lists. -/
def containsSubstring (needle : List Char) : List Char → Bool
  | [] => needle.isEmpty
  | c :: rest => isPrefixOfB needle (c :: rest) || containsSubstring needle rest

/-- The whitespace-stripped preview of the first 2048 bytes of the
response body (`clean_preview = ''.join(preview.split())`). -/
def cleanPreview (body : List Char) : List Char :=
  (body.take 2048).filter (fun c => ! isPySpace c)

/-- The literal error marker `"success":false` checked in the preview. -/
def successFalseMarker : List Char := "\"success\":false".data

/-- The literal error marker `"success":0` checked in the preview. -/
def successZeroMarker : List Char := "\"success\":0".data

/-- The nested-shape marker `"value":` followed by an opening brace. -/
def nestedValueMarker : List Char := "\"value\":\x7b".data

/-- The nested-records marker `"value":` brace `"records":[`. -/
def nestedRecordsMarker : List Char := "\"value\":\x7b\"records\":[".data

/-- The default `max_records` used by `fetch_api_data` when the API
source configuration omits the field. -/
def defaultMaxRecords : Nat := 100000

/-- An API source configuration, restricted to the field the claims
need: the optional `max_records` cap. -/
structure ApiConfig where
  maxRecords : Option Nat
deriving DecidableEq, Repr

/-- Embeds `api_config.get("max_records", 100000)` in `fetch_api_data`. -/
def effectiveMaxRecords (cfg : ApiConfig) : Nat :=
  cfg.maxRecords.getD defaultMaxRecords

/-- The body-processing part of `fetch_api_data` (after the HTTP POST
succeeded), as a function of the response body.  `parseMsg` stands for
`json.loads` on the full content followed by `.get("message", ...)`
(`some msg` when the document parses, `none` when `json.loads` raises);
`parseRecords` stands for the `ijson.items` incremental parse, its
`Bool` argument telling which path (`value.records.item` when the
nested marker was seen, else `value.item`) is walked.  The error branch
never constructs the chained stream or the `ijson` iterator; the
streaming branch logs `streamStart` here so that this is observable. -/
def fetchApiData (body : List Char) (parseMsg : List Char → Option String)
    (parseRecords : Bool → List Char → List Rec) (requiredFields : List String)
    (maxRecords batchSize : Nat) : Option DataFrame × List LogEvent :=
  let preview := cleanPreview body
  if containsSubstring successFalseMarker preview
      || containsSubstring successZeroMarker preview then
    match parseMsg body with
    | some msg => (none, [LogEvent.apiError msg])
    | none => (none, [LogEvent.apiErrorUnparseable])
  else
    let nested := containsSubstring nestedValueMarker preview
      || containsSubstring nestedRecordsMarker preview
    let records := parseRecords nested body
    let r := processStreamDataset records requiredFields maxRecords batchSize
    (r.1, LogEvent.streamStart :: r.2)

/-- One attempt of the function wrapped by `with_retry` in app.py: it
returned a DataFrame, or returned some other value of the given
truthiness, or raised. -/
inductive AttemptResult where
  | dataframe (d : DataFrame)
  | other (truthy : Bool)
  | exc
deriving DecidableEq, Repr

/-- The value `with_retry` hands back on success: the DataFrame, or
some other truthy result. -/
inductive RetryValue where
  | dataframe (d : DataFrame)
  | other
deriving DecidableEq, Repr

/-- Embeds `with_retry(func, max_attempts, delay, ...)` from app.py, over the
list of outcomes of the successive calls to `func` (the list length
plays the role of `max_attempts`).  A DataFrame result is returned
immediately, without the truthiness test; any other result is returned
only when truthy; a falsy result or an exception moves on to the next
attempt; exhausting the attempts yields `None`. -/
def withRetry : List AttemptResult → Option RetryValue
  | [] => none
  | AttemptResult.dataframe d :: _ => some (RetryValue.dataframe d)
  | AttemptResult.other true :: _ => some RetryValue.other
  | AttemptResult.other false :: rest => withRetry rest
  | AttemptResult.exc :: rest => withRetry rest

/-- The advisory lock file of a task: whether `locks/<task>.lock`
exists and its mtime (seconds). -/
structure LockState where
  present : Bool
  mtime : Nat
deriving DecidableEq, Repr

/-- Embeds `acquire_lock` (app.py) and `_manage_lock(task, acquire=True)`
(utils.py), as a function of the lock-file state and the current time
in seconds: an existing lock whose age exceeds one hour (3600 s) is
unlinked and the caller writes its own lock and succeeds; a younger
lock makes the acquisition fail; otherwise the lock file is written
with the current time. -/
def acquireLock (st : LockState) (now : Nat) : Bool × LockState :=
  if st.present then
    if 3600 < now - st.mtime then
      (true, ⟨true, now⟩)
    else
      (false, st)
  else
    (true, ⟨true, now⟩)

/-- The state `execute_task` cleans up: whether the task lock is held
and whether the per-run dataset cache holds entries. -/
structure RunState where
  lockHeld : Bool
  cachePopulated : Bool
deriving DecidableEq, Repr

/-- Embeds `release_lock(task_name)`, on the run state. -/
def releaseLockRun (s : RunState) : RunState := ⟨false, s.cachePopulated⟩

/-- Embeds `clear_task_cache(task_name)`, on the run state. -/
def clearTaskCache (s : RunState) : RunState := ⟨s.lockHeld, false⟩

/-- Outcome of the `try`-block body of `execute_task`: a `return b`, or
an exception reaching the `except` handler. -/
inductive BodyOutcome where
  | ret (b : Bool)
  | exc
deriving DecidableEq, Repr

/-- Embeds `execute_task(task_name)` from app.py.  Inputs stand for the
environment of one run: whether the task configuration exists and is
active, the lock-file state and clock, whether the per-run cache
already holds entries, the result of `with_retry(fetch_all_api_data)`
(`none` = all attempts failed), the result of the send stage, and
whether an unexpected exception escapes inside the `try` block.  The
`try/except/finally` of the source is modelled by computing the body's
outcome first and then applying `release_lock` and `clear_task_cache`
to whatever state the body left, exactly as a Python `finally` does on
return and on exception alike. -/
def executeTask (cfgExists statusActive : Bool) (lockSt : LockState) (now : Nat)
    (initCache : Bool) (fetchRes : Option (List (Option DataFrame)))
    (sendRes : Option Bool) (unexpectedExc : Bool) : Bool × RunState :=
  if cfgExists = false then (false, ⟨false, initCache⟩)
  else if statusActive = false then (false, ⟨false, initCache⟩)
  else if (acquireLock lockSt now).1 = false then (false, ⟨false, initCache⟩)
  else
    let body : BodyOutcome × RunState :=
      if unexpectedExc then (BodyOutcome.exc, ⟨true, initCache⟩)
      else
        match fetchRes with
        | none => (BodyOutcome.ret false, ⟨true, initCache⟩)
        | some frames =>
          if frames.isEmpty || frames.any (fun d => d.isNone) then
            (BodyOutcome.ret false, ⟨true, true⟩)
          else
            match sendRes with
            | some true => (BodyOutcome.ret true, ⟨true, true⟩)
            | _ => (BodyOutcome.ret false, ⟨true, true⟩)
    let result := match body.1 with
      | BodyOutcome.ret b => b
      | BodyOutcome.exc => false
    (result, clearTaskCache (releaseLockRun body.2))

/-- The sanitisation chain applied to a sheet name in
`generate_excel_file_with_sheets` and `_create_excel_attachment`:
`.replace('/', '-').replace(backslash, '-').replace('?', '')
.replace('*', '-').replace('[', '(').replace(']', ')')`. -/
def sanitizeStages (l : List Char) : List Char :=
  (((((l.map (fun c => if c = '/' then '-' else c)).map
      (fun c => if c = '\\' then '-' else c)).filter
      (fun c => decide (c ≠ '?'))).map
      (fun c => if c = '*' then '-' else c)).map
      (fun c => if c = '[' then '(' else c)).map
      (fun c => if c = ']' then ')' else c)

/-- Embeds `sheet_name[:31]` followed by the replacement chain. -/
def sanitizeSheetName (s : List Char) : List Char :=
  sanitizeStages (s.take 31)

/-- Embeds `sheet_names[i] if i < len(sheet_names) else f"Sheet<i+1>"`: the
name chosen for the dataset at position `i` before sanitisation. -/
def chosenSheetName (names : List (List Char)) (i : Nat) : List Char :=
  match names.get? i with
  | some n => n
  | none => "Sheet".data ++ (Nat.repr (i + 1)).data

/-! ### Library facts about the embedded operations -/

lemma mem_dropDupsAux {α : Type} [DecidableEq α] :
    ∀ (l seen : List α) (a : α), a ∈ dropDupsAux l seen ↔ a ∈ l ∧ a ∉ seen := by
  intro l
  induction l with
  | nil => intro seen a; simp [dropDupsAux]
  | cons x xs ih =>
    intro seen a
    by_cases hx : x ∈ seen
    · rw [dropDupsAux, if_pos hx, ih]
      by_cases hax : a = x <;> simp [hax, hx, List.mem_cons]
    · rw [dropDupsAux, if_neg hx]
      simp only [List.mem_cons, ih]
      by_cases hax : a = x <;> simp [hax, hx, List.mem_cons]

lemma mem_dropDupsFirst {α : Type} [DecidableEq α] (l : List α) (a : α) :
    a ∈ dropDupsFirst l ↔ a ∈ l := by
  simp [dropDupsFirst, mem_dropDupsAux]

lemma length_dropDupsAux_le {α : Type} [DecidableEq α] :
    ∀ (l seen : List α), (dropDupsAux l seen).length ≤ l.length := by
  intro l
  induction l with
  | nil => intro seen; simp [dropDupsAux]
  | cons x xs ih =>
    intro seen
    by_cases hx : x ∈ seen
    · rw [dropDupsAux, if_pos hx]
      exact Nat.le_trans (ih seen) (Nat.le_succ _)
    · rw [dropDupsAux, if_neg hx]
      simpa using Nat.succ_le_succ (ih (x :: seen))

lemma length_dropDupsFirst_le {α : Type} [DecidableEq α] (l : List α) :
    (dropDupsFirst l).length ≤ l.length :=
  length_dropDupsAux_le l []

lemma dropDupsAux_eq_self {α : Type} [DecidableEq α] :
    ∀ (l seen : List α), l.Nodup → (∀ x ∈ l, x ∉ seen) → dropDupsAux l seen = l := by
  intro l
  induction l with
  | nil => intro seen _ _; rfl
  | cons x xs ih =>
    intro seen hnd hdisj
    have hx : x ∉ seen := hdisj x (List.mem_cons_self x xs)
    rw [dropDupsAux, if_neg hx]
    have htail : dropDupsAux xs (x :: seen) = xs := by
      refine ih (x :: seen) hnd.of_cons ?_
      intro y hy
      simp only [List.mem_cons, not_or]
      refine ⟨?_, hdisj y (List.mem_cons_of_mem x hy)⟩
      intro hyx
      exact (List.nodup_cons.mp hnd).1 (hyx ▸ hy)
    rw [htail]

lemma dropDupsFirst_eq_self {α : Type} [DecidableEq α] (l : List α) (h : l.Nodup) :
    dropDupsFirst l = l :=
  dropDupsAux_eq_self l [] h (by simp)

lemma mem_columns_fold (rows : List Rec) :
    ∀ (acc : List String) (a : String),
      (a ∈ rows.foldl
          (fun acc r => acc ++ (r.map Prod.fst).filter (fun k => decide (k ∉ acc))) acc)
        ↔ a ∈ acc ∨ ∃ r ∈ rows, a ∈ r.map Prod.fst := by
  induction rows with
  | nil => intro acc a; simp
  | cons r rest ih =>
    intro acc a
    rw [List.foldl_cons, ih]
    simp only [List.mem_append, List.mem_filter, List.mem_cons, decide_eq_true_eq]
    by_cases hacc : a ∈ acc
    · simp [hacc]
    · simp only [hacc, false_or]
      constructor
      · rintro (⟨h1, _⟩ | ⟨r2, h2, h3⟩)
        · exact ⟨r, Or.inl rfl, h1⟩
        · exact ⟨r2, Or.inr h2, h3⟩
      · rintro ⟨r2, h2 | h2, h3⟩
        · exact Or.inl ⟨h2 ▸ h3, not_false⟩
        · exact Or.inr ⟨r2, h2, h3⟩

lemma mem_columnsOf (rows : List Rec) (a : String) :
    a ∈ columnsOf rows ↔ ∃ r ∈ rows, a ∈ r.map Prod.fst := by
  rw [columnsOf, mem_columns_fold]
  simp

lemma mem_columnsOf_dropDupsFirst (rows : List Rec) (a : String) :
    a ∈ columnsOf (dropDupsFirst rows) ↔ a ∈ columnsOf rows := by
  simp only [mem_columnsOf, mem_dropDupsFirst]

lemma streamLoop_unfold (r : Rec) (rest : List Rec) (b m : Nat) (cur : List Rec)
    (t : Nat) (dfs : List (List Rec)) :
    streamLoop (r :: rest) b m cur t dfs =
      if b ≤ (cur ++ [r]).length then
        if m ≤ t + 1 then ⟨dfs ++ [cur ++ [r]], [], t + 1, true⟩
        else streamLoop rest b m [] (t + 1) (dfs ++ [cur ++ [r]])
      else
        if m ≤ t + 1 then ⟨dfs, cur ++ [r], t + 1, true⟩
        else streamLoop rest b m (cur ++ [r]) (t + 1) dfs := rfl

lemma streamLoop_flatten :
    ∀ (records : List Rec) (b m : Nat) (cur : List Rec) (t : Nat)
      (dfs : List (List Rec)), t < m →
      (streamLoop records b m cur t dfs).batches.flatten
          ++ (streamLoop records b m cur t dfs).pending
        = dfs.flatten ++ cur ++ records.take (m - t) := by
  intro records
  induction records with
  | nil =>
    intro b m cur t dfs ht
    simp [streamLoop]
  | cons r rest ih =>
    intro b m cur t dfs ht
    rw [streamLoop_unfold]
    by_cases hb : b ≤ (cur ++ [r]).length
    · rw [if_pos hb]
      by_cases hm : m ≤ t + 1
      · rw [if_pos hm]
        have hmt : m - t = 1 := by omega
        simp [hmt, List.flatten_append, List.append_assoc]
      · rw [if_neg hm, ih b m [] (t + 1) (dfs ++ [cur ++ [r]]) (by omega)]
        have hmt : m - t = (m - (t + 1)) + 1 := by omega
        rw [hmt, List.take_succ_cons]
        simp [List.flatten_append, List.append_assoc]
    · rw [if_neg hb]
      by_cases hm : m ≤ t + 1
      · rw [if_pos hm]
        have hmt : m - t = 1 := by omega
        simp [hmt, List.append_assoc]
      · rw [if_neg hm, ih b m (cur ++ [r]) (t + 1) dfs (by omega)]
        have hmt : m - t = (m - (t + 1)) + 1 := by omega
        rw [hmt, List.take_succ_cons]
        simp [List.append_assoc]

lemma streamLoop_truncated :
    ∀ (records : List Rec) (b m : Nat) (cur : List Rec) (t : Nat)
      (dfs : List (List Rec)), t < m →
      ((streamLoop records b m cur t dfs).truncated = true ↔ m ≤ t + records.length) := by
  intro records
  induction records with
  | nil =>
    intro b m cur t dfs ht
    simp [streamLoop]
    omega
  | cons r rest ih =>
    intro b m cur t dfs ht
    rw [streamLoop_unfold]
    by_cases hb : b ≤ (cur ++ [r]).length
    · rw [if_pos hb]
      by_cases hm : m ≤ t + 1
      · rw [if_pos hm]
        simp only [List.length_cons]
        constructor
        · intro _
          omega
        · intro _
          trivial
      · rw [if_neg hm, ih b m [] (t + 1) (dfs ++ [cur ++ [r]]) (by omega)]
        simp only [List.length_cons]
        omega
    · rw [if_neg hb]
      by_cases hm : m ≤ t + 1
      · rw [if_pos hm]
        simp only [List.length_cons]
        constructor
        · intro _
          omega
        · intro _
          trivial
      · rw [if_neg hm, ih b m (cur ++ [r]) (t + 1) dfs (by omega)]
        simp only [List.length_cons]
        omega

lemma streamLoop_batches_ne_nil :
    ∀ (records : List Rec) (b m : Nat) (cur : List Rec) (t : Nat)
      (dfs : List (List Rec)), (∀ x ∈ dfs, x ≠ []) →
      ∀ x ∈ (streamLoop records b m cur t dfs).batches, x ≠ [] := by
  intro records
  induction records with
  | nil =>
    intro b m cur t dfs hdfs
    simpa [streamLoop] using hdfs
  | cons r rest ih =>
    intro b m cur t dfs hdfs
    have hext : ∀ x ∈ dfs ++ [cur ++ [r]], x ≠ [] := by
      intro x hx
      rcases List.mem_append.mp hx with h | h
      · exact hdfs x h
      · simp only [List.mem_singleton] at h
        subst h
        simp
    rw [streamLoop_unfold]
    by_cases hb : b ≤ (cur ++ [r]).length
    · rw [if_pos hb]
      by_cases hm : m ≤ t + 1
      · rw [if_pos hm]
        exact hext
      · rw [if_neg hm]
        exact ih b m [] (t + 1) (dfs ++ [cur ++ [r]]) hext
    · rw [if_neg hb]
      by_cases hm : m ≤ t + 1
      · rw [if_pos hm]
        exact hdfs
      · rw [if_neg hm]
        exact ih b m (cur ++ [r]) (t + 1) dfs hdfs

lemma streamBatches_flatten (records : List Rec) (b m : Nat) (hm : 1 ≤ m) :
    (streamBatches records b m).flatten = records.take m := by
  have h := streamLoop_flatten records b m [] 0 [] hm
  simp only [List.flatten_nil, List.nil_append, Nat.sub_zero] at h
  unfold streamBatches
  by_cases hp : (streamLoop records b m [] 0 []).pending = []
  · simp only [hp, if_pos]
    simpa [hp] using h
  · simp only [hp, if_neg, ite_false]
    rw [List.flatten_append]
    simpa using h

lemma streamBatches_eq_nil_iff (records : List Rec) (b m : Nat) (hm : 1 ≤ m) :
    streamBatches records b m = [] ↔ records = [] := by
  constructor
  · intro h
    have := streamBatches_flatten records b m hm
    rw [h] at this
    simp only [List.flatten_nil] at this
    rcases List.take_eq_nil_iff.mp this.symm with h1 | h1
    · omega
    · exact h1
  · intro h
    subst h
    simp [streamBatches, streamLoop]

lemma finalizeDataframe_eq (rows : List Rec) (requiredFields : List String) :
    finalizeDataframe ⟨rows⟩ requiredFields =
      if requiredFields ≠ [] ∧
          requiredFields.filter
            (fun f => decide (f ∉ columnsOf (dropDupsFirst rows))) ≠ [] then none
      else some ⟨dropDupsFirst rows⟩ := by
  by_cases h : rows = []
  · subst h
    simp [finalizeDataframe, dropDupsFirst, dropDupsAux]
  · simp [finalizeDataframe, h]

lemma finalizeDataframe_some (rows : List Rec) (requiredFields : List String)
    (hreq : ∀ f ∈ requiredFields, f ∈ columnsOf rows) :
    finalizeDataframe ⟨rows⟩ requiredFields = some ⟨dropDupsFirst rows⟩ := by
  rw [finalizeDataframe_eq]
  have hfil : requiredFields.filter
      (fun f => decide (f ∉ columnsOf (dropDupsFirst rows))) = [] := by
    rw [List.filter_eq_nil_iff]
    intro f hf
    simp only [decide_eq_true_eq, Decidable.not_not]
    exact (mem_columnsOf_dropDupsFirst rows f).mpr (hreq f hf)
  simp [hfil]
  intro _ f hf
  exact (mem_columnsOf_dropDupsFirst rows f).mpr (hreq f hf)

lemma processStreamDataset_eq (records : List Rec) (requiredFields : List String)
    (m b : Nat) (hm : 1 ≤ m) :
    processStreamDataset records requiredFields m b =
      (if records = [] then none else finalizeDataframe ⟨records.take m⟩ requiredFields,
       (if m ≤ records.length then [LogEvent.truncationWarning m] else [])
         ++ if records = [] then [LogEvent.noDataWarning] else []) := by
  have hfl := streamBatches_flatten records b m hm
  have hnil := streamBatches_eq_nil_iff records b m hm
  have htr := streamLoop_truncated records b m [] 0 [] hm
  simp only [Nat.zero_add] at htr
  by_cases hrec : records = []
  · subst hrec
    have hm0 : ¬ m ≤ 0 := by omega
    simp [processStreamDataset, streamBatches, streamLoop, hm0]
  · have hbne : streamBatches records b m ≠ [] := fun h => hrec (hnil.mp h)
    unfold processStreamDataset
    rw [if_neg hbne, hfl, if_neg hrec]
    by_cases hlen : m ≤ records.length
    · have : (streamLoop records b m [] 0 []).truncated = true := htr.mpr hlen
      simp [this, hlen, hrec]
    · have : (streamLoop records b m [] 0 []).truncated = false := by
        rcases Bool.eq_false_or_eq_true (streamLoop records b m [] 0 []).truncated with h | h
        · exact absurd (htr.mp h) hlen
        · exact h
      simp [this, hlen, hrec]

lemma ite_char_ne_self {y b r : Char} (hr : r ≠ b) : (if y = b then r else y) ≠ b := by
  by_cases h : y = b <;> simp [h, hr]

lemma ite_char_ne {y b r a : Char} (hr : r ≠ a) (hy : y ≠ a) :
    (if y = b then r else y) ≠ a := by
  by_cases h : y = b <;> simp [h, hr, hy]

lemma sanitizeStages_length_le (l : List Char) :
    (sanitizeStages l).length ≤ l.length := by
  simp only [sanitizeStages, List.length_map]
  calc (((l.map (fun c => if c = '/' then '-' else c)).map
          (fun c => if c = '\\' then '-' else c)).filter
          (fun c => decide (c ≠ '?'))).length
      ≤ ((l.map (fun c => if c = '/' then '-' else c)).map
          (fun c => if c = '\\' then '-' else c)).length := List.length_filter_le _ _
    _ = l.length := by simp

lemma sanitizeSheetName_length_le (s : List Char) :
    (sanitizeSheetName s).length ≤ 31 := by
  refine Nat.le_trans (sanitizeStages_length_le (s.take 31)) ?_
  simp [List.length_take]

lemma sanitizeStages_no_illegal (l : List Char) :
    ∀ c ∈ sanitizeStages l,
      ¬ (c = '/' ∨ c = '\\' ∨ c = '?' ∨ c = '*' ∨ c = '[' ∨ c = ']') := by
  intro c hc
  unfold sanitizeStages at hc
  obtain ⟨a5, ha5, rfl⟩ := List.mem_map.mp hc
  obtain ⟨a4, ha4, rfl⟩ := List.mem_map.mp ha5
  obtain ⟨a3, ha3, rfl⟩ := List.mem_map.mp ha4
  obtain ⟨ha3m, ha3q⟩ := List.mem_filter.mp ha3
  obtain ⟨a1, ha1, rfl⟩ := List.mem_map.mp ha3m
  obtain ⟨a0, _, rfl⟩ := List.mem_map.mp ha1
  simp only [decide_eq_true_eq] at ha3q
  have hy1 : (if a0 = '/' then '-' else a0) ≠ '/' := ite_char_ne_self (by decide)
  have hy2 : (if (if a0 = '/' then '-' else a0) = '\\' then '-'
      else if a0 = '/' then '-' else a0) ≠ '\\' := ite_char_ne_self (by decide)
  have hy3 : (if (if a0 = '/' then '-' else a0) = '\\' then '-'
      else if a0 = '/' then '-' else a0) ≠ '/' := ite_char_ne (by decide) hy1
  set y := if (if a0 = '/' then '-' else a0) = '\\' then '-'
      else if a0 = '/' then '-' else a0 with hydef
  have hz1 : (if y = '*' then '-' else y) ≠ '*' := ite_char_ne_self (by decide)
  have hz2 : (if y = '*' then '-' else y) ≠ '/' := ite_char_ne (by decide) hy3
  have hz3 : (if y = '*' then '-' else y) ≠ '\\' := ite_char_ne (by decide) hy2
  have hz4 : (if y = '*' then '-' else y) ≠ '?' := ite_char_ne (by decide) ha3q
  set z := if y = '*' then '-' else y with hzdef
  have hw1 : (if z = '[' then '(' else z) ≠ '[' := ite_char_ne_self (by decide)
  have hw2 : (if z = '[' then '(' else z) ≠ '/' := ite_char_ne (by decide) hz2
  have hw3 : (if z = '[' then '(' else z) ≠ '\\' := ite_char_ne (by decide) hz3
  have hw4 : (if z = '[' then '(' else z) ≠ '?' := ite_char_ne (by decide) hz4
  have hw5 : (if z = '[' then '(' else z) ≠ '*' := ite_char_ne (by decide) hz1
  set w := if z = '[' then '(' else z with hwdef
  have hc1 : (if w = ']' then ')' else w) ≠ ']' := ite_char_ne_self (by decide)
  have hc2 : (if w = ']' then ')' else w) ≠ '/' := ite_char_ne (by decide) hw2
  have hc3 : (if w = ']' then ')' else w) ≠ '\\' := ite_char_ne (by decide) hw3
  have hc4 : (if w = ']' then ')' else w) ≠ '?' := ite_char_ne (by decide) hw4
  have hc5 : (if w = ']' then ')' else w) ≠ '*' := ite_char_ne (by decide) hw5
  have hc6 : (if w = ']' then ')' else w) ≠ '[' := ite_char_ne (by decide) hw1
  rintro (h | h | h | h | h | h)
  · exact hc2 h
  · exact hc3 h
  · exact hc4 h
  · exact hc5 h
  · exact hc6 h
  · exact hc1 h

lemma cleanup_resets (s : RunState) : clearTaskCache (releaseLockRun s) = ⟨false, false⟩ := rfl

/-! ### Concrete records used by witnesses and counterexamples -/

/-- A concrete one-field record. -/
def recA : Rec := [("a", "1")]

/-- A second, distinct one-field record. -/
def recB : Rec := [("a", "2")]

/-! ### The claims -/

/-- C1 (corrected): the batch size never changes the output of the
streaming pipeline (dataset-or-None and logs alike), and — provided the
response yields at most `max_records` records — every dataset the
pipeline yields has exactly the fully buffered dataset's rows
deduplicated (hence row-set equal to D after deduplication).  The
unconditional form of the claim fails when the response holds more than
`max_records` records, see `c1_counterexample`. -/
theorem c1_stream_equiv (records : List Rec) (requiredFields : List String)
    (m b b2 : Nat) (hm : 1 ≤ m) :
    processStreamDataset records requiredFields m b
        = processStreamDataset records requiredFields m b2 ∧
    (records.length ≤ m → ∀ df,
      (processStreamDataset records requiredFields m b).1 = some df →
      df.rows = dropDupsFirst records) := by
  constructor
  · rw [processStreamDataset_eq records requiredFields m b hm,
        processStreamDataset_eq records requiredFields m b2 hm]
  · intro hlen df hdf
    rw [processStreamDataset_eq records requiredFields m b hm] at hdf
    have hdf2 : (if records = [] then none
        else finalizeDataframe ⟨records.take m⟩ requiredFields) = some df := hdf
    by_cases hne : records = []
    · rw [if_pos hne] at hdf2
      exact absurd hdf2 (by simp)
    · rw [if_neg hne, List.take_of_length_le hlen, finalizeDataframe_eq] at hdf2
      by_cases hcond : requiredFields ≠ [] ∧
          requiredFields.filter
            (fun f => decide (f ∉ columnsOf (dropDupsFirst records))) ≠ []
      · rw [if_pos hcond] at hdf2
        exact absurd hdf2 (by simp)
      · rw [if_neg hcond] at hdf2
        injection hdf2 with h2
        rw [← h2]

/-- Witness for C1: two distinct records under `max_records = 5`, batch
sizes 1 and 2 agree, and the concrete returned dataset is the
deduplicated one. -/
theorem c1_stream_equiv_witness :
    processStreamDataset [recA, recB] ["a"] 5 1
        = processStreamDataset [recA, recB] ["a"] 5 2 ∧
    (⟨dropDupsFirst [recA, recB]⟩ : DataFrame).rows = dropDupsFirst [recA, recB] :=
  ⟨(c1_stream_equiv [recA, recB] ["a"] 5 1 2 (by decide)).1,
   (c1_stream_equiv [recA, recB] ["a"] 5 1 2 (by decide)).2 (by decide)
     ⟨dropDupsFirst [recA, recB]⟩ (by decide)⟩

/-- Counterexample to C1 as stated: with `max_records = 1` and a fully
buffered dataset D = [recA, recB], the streaming pipeline returns only
[recA]; recB is in D's deduplicated row set but not in the streamed
result, so the row sets differ. -/
theorem c1_counterexample :
    (processStreamDataset [recA, recB] [] 1 defaultBatchSize).1 = some ⟨[recA]⟩ ∧
    recB ∈ dropDupsFirst [recA, recB] ∧ recB ∉ [recA] := by decide

/-- C2 (corrected): with `max_records = k` and more than `k` records in
the stream, exactly the first `k` records are ingested and the returned
dataset consists of their distinct rows — exactly `k` rows when the
first `k` records are pairwise distinct, at most `k` otherwise — and a
truncation warning is logged.  The unconditional "exactly k rows" fails
because deduplication runs after truncation, see `c2_counterexample`. -/
theorem c2_truncation (records : List Rec) (requiredFields : List String) (k b : Nat)
    (hk : 1 ≤ k) (hlen : k < records.length)
    (hreq : ∀ f ∈ requiredFields, f ∈ columnsOf (records.take k)) :
    (processStreamDataset records requiredFields k b).1
        = some ⟨dropDupsFirst (records.take k)⟩ ∧
    (dropDupsFirst (records.take k)).length ≤ k ∧
    ((records.take k).Nodup → (dropDupsFirst (records.take k)).length = k) ∧
    LogEvent.truncationWarning k ∈ (processStreamDataset records requiredFields k b).2 := by
  have hrecne : records ≠ [] := by
    intro h
    subst h
    simp at hlen
  refine ⟨?_, ?_, ?_, ?_⟩
  · rw [processStreamDataset_eq records requiredFields k b hk]
    show (if records = [] then none
        else finalizeDataframe ⟨records.take k⟩ requiredFields)
      = some ⟨dropDupsFirst (records.take k)⟩
    rw [if_neg hrecne]
    exact finalizeDataframe_some _ _ hreq
  · calc (dropDupsFirst (records.take k)).length
        ≤ (records.take k).length := length_dropDupsFirst_le _
      _ ≤ k := by
          rw [List.length_take]
          omega
  · intro hnd
    rw [dropDupsFirst_eq_self _ hnd, List.length_take]
    omega
  · rw [processStreamDataset_eq records requiredFields k b hk]
    show LogEvent.truncationWarning k ∈
      (if k ≤ records.length then [LogEvent.truncationWarning k] else [])
        ++ if records = [] then [LogEvent.noDataWarning] else []
    rw [if_pos (by omega : k ≤ records.length)]
    simp

/-- Witness for C2: three records with a duplicate beyond the cap,
`k = 2`: the pipeline returns the distinct rows of the first two
records and logs the truncation warning. -/
theorem c2_truncation_witness :
    (processStreamDataset [recA, recB, recA] [] 2 defaultBatchSize).1
        = some ⟨dropDupsFirst ([recA, recB, recA].take 2)⟩ ∧
    (dropDupsFirst ([recA, recB, recA].take 2)).length ≤ 2 ∧
    (([recA, recB, recA].take 2 : List Rec).Nodup →
      (dropDupsFirst ([recA, recB, recA].take 2)).length = 2) ∧
    LogEvent.truncationWarning 2
      ∈ (processStreamDataset [recA, recB, recA] [] 2 defaultBatchSize).2 :=
  c2_truncation [recA, recB, recA] [] 2 defaultBatchSize (by decide) (by decide)
    (by decide)

/-- Counterexample to C2 as stated: `max_records = 2`, three identical
records in the stream (more than 2): the returned dataset has 1 row,
not exactly 2, because deduplication runs after the truncation. -/
theorem c2_counterexample :
    (processStreamDataset [recA, recA, recA] [] 2 defaultBatchSize).1 = some ⟨[recA]⟩ ∧
    ([recA] : List Rec).length ≠ 2 := by decide

/-- C3: a response whose whitespace-stripped 2 KB preview contains the
`"success":false` marker makes `fetch_api_data` return the "no data"
result (`None`), log the embedded error message (when the full body
parses), and never enter the array-streaming branch. -/
theorem c3_error_response (body : List Char) (parseMsg : List Char → Option String)
    (parseRecords : Bool → List Char → List Rec) (requiredFields : List String)
    (maxRecords batchSize : Nat)
    (h : containsSubstring successFalseMarker (cleanPreview body) = true) :
    (fetchApiData body parseMsg parseRecords requiredFields maxRecords batchSize).1
        = none ∧
    LogEvent.streamStart ∉
      (fetchApiData body parseMsg parseRecords requiredFields maxRecords batchSize).2 ∧
    ∀ msg, parseMsg body = some msg →
      LogEvent.apiError msg ∈
        (fetchApiData body parseMsg parseRecords requiredFields maxRecords batchSize).2 := by
  simp only [fetchApiData]
  rw [h]
  simp only [Bool.true_or, if_true]
  cases hp : parseMsg body with
  | none =>
    refine ⟨rfl, by simp, ?_⟩
    intro msg hmsg
    exact absurd hmsg (by simp)
  | some msg =>
    refine ⟨rfl, by simp, ?_⟩
    intro msg2 hmsg
    rw [Option.some.injEq] at hmsg
    subst hmsg
    simp

/-- A concrete minified error body used as the C3 witness input. -/
def errorBody : List Char := "\x7b\"success\":false,\"message\":\"bad key\"\x7d".data

/-- Witness for C3: on a concrete minified error response the fetch
returns `None`, logs the message, and never starts streaming. -/
theorem c3_error_response_witness :
    (fetchApiData errorBody (fun _ => some "bad key") (fun _ _ => []) [] 100000
        defaultBatchSize).1 = none ∧
    LogEvent.streamStart ∉
      (fetchApiData errorBody (fun _ => some "bad key") (fun _ _ => []) [] 100000
        defaultBatchSize).2 ∧
    LogEvent.apiError "bad key" ∈
      (fetchApiData errorBody (fun _ => some "bad key") (fun _ _ => []) [] 100000
        defaultBatchSize).2 := by
  have h := c3_error_response errorBody (fun _ => some "bad key") (fun _ _ => []) []
    100000 defaultBatchSize (by decide)
  exact ⟨h.1, h.2.1, h.2.2 "bad key" rfl⟩

/-- C4: a non-empty required-field list with a field absent from the
dataset's columns makes `_finalize_dataframe` reject the dataset and
return `None`, regardless of the parsed rows. -/
theorem c4_required_field_gate (df : DataFrame) (requiredFields : List String)
    (f : String) (hne : requiredFields ≠ []) (hf : f ∈ requiredFields)
    (hmiss : f ∉ columnsOf df.rows) :
    finalizeDataframe df requiredFields = none := by
  obtain ⟨rows⟩ := df
  rw [finalizeDataframe_eq]
  have hfmem : f ∈ requiredFields.filter
      (fun g => decide (g ∉ columnsOf (dropDupsFirst rows))) := by
    rw [List.mem_filter]
    refine ⟨hf, ?_⟩
    simp only [decide_eq_true_eq]
    intro hcon
    exact hmiss ((mem_columnsOf_dropDupsFirst rows f).mp hcon)
  exact if_pos ⟨hne, List.ne_nil_of_mem hfmem⟩

/-- Witness for C4: a one-row dataset with column "a" is rejected when
"b" is required. -/
theorem c4_required_field_gate_witness :
    finalizeDataframe ⟨[recA]⟩ ["b"] = none :=
  c4_required_field_gate ⟨[recA]⟩ ["b"] "b" (by decide) (by decide) (by decide)

/-- C5: `with_retry` returns a DataFrame result immediately — even an
empty one — while a falsy non-DataFrame result or an exception moves on
to the next attempt. -/
theorem c5_retry_dataframe (d : DataFrame) (rest : List AttemptResult) :
    withRetry (AttemptResult.dataframe d :: rest) = some (RetryValue.dataframe d) ∧
    withRetry (AttemptResult.dataframe ⟨[]⟩ :: rest)
        = some (RetryValue.dataframe ⟨[]⟩) ∧
    withRetry (AttemptResult.other false :: rest) = withRetry rest ∧
    withRetry (AttemptResult.exc :: rest) = withRetry rest :=
  ⟨rfl, rfl, rfl, rfl⟩

/-- C6: acquisition against a lock file whose mtime is more than one
hour in the past deletes the stale lock and succeeds (writing a fresh
lock); against a lock within the past hour it fails and returns
`False`, leaving the lock file untouched. -/
theorem c6_lock_reclaim (st : LockState) (now : Nat) (hp : st.present = true) :
    (st.mtime + 3600 < now → acquireLock st now = (true, ⟨true, now⟩)) ∧
    (now ≤ st.mtime + 3600 → acquireLock st now = (false, st)) := by
  constructor
  · intro h
    have h2 : 3600 < now - st.mtime := by omega
    simp [acquireLock, hp, h2]
  · intro h
    have h2 : ¬ 3600 < now - st.mtime := by omega
    simp [acquireLock, hp, h2]

/-- Witness for C6: a lock from 2 hours ago is reclaimed; a lock from 5
minutes ago blocks the acquisition. -/
theorem c6_lock_reclaim_witness :
    acquireLock ⟨true, 0⟩ 7200 = (true, ⟨true, 7200⟩) ∧
    acquireLock ⟨true, 0⟩ 300 = (false, ⟨true, 0⟩) :=
  ⟨(c6_lock_reclaim ⟨true, 0⟩ 7200 rfl).1 (by decide),
   (c6_lock_reclaim ⟨true, 0⟩ 300 rfl).2 (by decide)⟩

/-- C7: every run of `execute_task` that gets past lock acquisition
releases the lock and clears the per-run dataset cache on every exit
path — success, failure return, or exception inside the `try` block. -/
theorem c7_cleanup (cfgExists statusActive : Bool) (lockSt : LockState) (now : Nat)
    (initCache : Bool) (fetchRes : Option (List (Option DataFrame)))
    (sendRes : Option Bool) (unexpectedExc : Bool)
    (hc : cfgExists = true) (ha : statusActive = true)
    (hl : (acquireLock lockSt now).1 = true) :
    (executeTask cfgExists statusActive lockSt now initCache fetchRes sendRes
        unexpectedExc).2 = ⟨false, false⟩ := by
  subst hc
  subst ha
  unfold executeTask
  have h1 : ¬ (true = false) := by decide
  have h2 : ¬ ((acquireLock lockSt now).1 = false) := by simp [hl]
  rw [if_neg h1, if_neg h1, if_neg h2]
  exact cleanup_resets _

/-- Witness for C7: a fully successful concrete run still ends with the
lock released and the cache cleared. -/
theorem c7_cleanup_witness :
    (executeTask true true ⟨false, 0⟩ 0 true (some [some ⟨[recA]⟩]) (some true)
        false).2 = ⟨false, false⟩ :=
  c7_cleanup true true ⟨false, 0⟩ 0 true (some [some ⟨[recA]⟩]) (some true) false
    rfl rfl rfl

/-- C8: the sanitized sheet name is at most 31 characters long and
contains none of the illegal characters, and a position with no
configured name falls back to the generic Sheet(N) label. -/
theorem c8_sheet_names (names : List (List Char)) (i : Nat) (s : List Char) :
    (sanitizeSheetName s).length ≤ 31 ∧
    (∀ c ∈ sanitizeSheetName s,
      ¬ (c = '/' ∨ c = '\\' ∨ c = '?' ∨ c = '*' ∨ c = '[' ∨ c = ']')) ∧
    (names.length ≤ i →
      chosenSheetName names i = "Sheet".data ++ (Nat.repr (i + 1)).data) := by
  refine ⟨sanitizeSheetName_length_le s, sanitizeStages_no_illegal _, ?_⟩
  intro h
  unfold chosenSheetName
  rw [List.get?_eq_none.mpr h]

/-- A concrete over-long sheet name holding every illegal character. -/
def messySheetName : List Char :=
  "a/b\\c?d*e[f]gggggggggggggggggggggggggggggg".data

/-- Witness for C8: the messy name is cut to at most 31 characters and
position 0 of an empty name list falls back to Sheet1. -/
theorem c8_sheet_names_witness :
    (sanitizeSheetName messySheetName).length ≤ 31 ∧
    chosenSheetName [] 0 = "Sheet".data ++ (Nat.repr 1).data :=
  ⟨(c8_sheet_names [] 0 messySheetName).1,
   (c8_sheet_names [] 0 messySheetName).2.2 (by decide)⟩

/-- C9: a well-formed success response whose record array is empty
makes the streaming pipeline return `None` — the same sentinel used for
fetch failures — rather than an empty dataset, logging the no-data
warning. -/
theorem c9_empty_is_none (requiredFields : List String) (maxRecords batchSize : Nat) :
    (processStreamDataset [] requiredFields maxRecords batchSize).1 = none ∧
    LogEvent.noDataWarning
      ∈ (processStreamDataset [] requiredFields maxRecords batchSize).2 := by
  constructor
  · rfl
  · show LogEvent.noDataWarning ∈
      (if (false : Bool) then [LogEvent.truncationWarning maxRecords] else [])
        ++ [LogEvent.noDataWarning]
    simp

/-- C10: when the API source configuration omits `max_records`, the
pipeline caps consumption at the default of 100000 records: the
concatenation of the produced batches is exactly the first 100000
records of the stream, for every batch size. -/
theorem c10_default_cap (cfg : ApiConfig) (h : cfg.maxRecords = none) :
    effectiveMaxRecords cfg = 100000 ∧
    ∀ (records : List Rec) (b : Nat),
      (streamBatches records b (effectiveMaxRecords cfg)).flatten
        = records.take 100000 := by
  have he : effectiveMaxRecords cfg = 100000 := by
    simp [effectiveMaxRecords, h, defaultMaxRecords]
  refine ⟨he, ?_⟩
  intro records b
  rw [he]
  exact streamBatches_flatten records b 100000 (by omega)

/-- Witness for C10: a two-record stream under the defaulted cap is
consumed whole. -/
theorem c10_default_cap_witness :
    effectiveMaxRecords ⟨none⟩ = 100000 ∧
    (streamBatches [recA, recB] defaultBatchSize (effectiveMaxRecords ⟨none⟩)).flatten
      = [recA, recB].take 100000 :=
  ⟨(c10_default_cap ⟨none⟩ rfl).1,
   (c10_default_cap ⟨none⟩ rfl).2 [recA, recB] defaultBatchSize⟩
